import Mathlib

/-!
Verification of the geotrans segment-frame transformation kernel.

The Rust source is shallowly embedded: `f64` scalars become `ℝ` (exact real
arithmetic, the idealized semantics of the floating-point code), `i32` ids
become `ℤ`, and fallible construction returns `Except`.  Two auxiliary models
capture genuinely floating-point behaviour: `Fl` (an IEEE-754-flavoured value
domain with NaN and infinities, finite values carried exactly and zero signs
abstracted away) and `F64` (a bit-pattern-level model used only for the
`PartialEq` comparison semantics).

Embedded source files: `src/vector.rs`, `src/quaternion.rs`, `src/lib.rs`
(`Conic`, `Error`, and the v0.2 `Segment` rotation), `src/segment.rs` and
`src/transform.rs` (the current `Segment`, `Transform` and `TransformMut`).
-/

noncomputable section

namespace Geotrans

/-- 3-component real vector, embedding `Vector` from `src/vector.rs`
(`pub struct Vector([f64; 3])`). -/
@[ext]
structure Vector where
  x : ℝ
  y : ℝ
  z : ℝ

/-- `Vector::dot` from `src/vector.rs`: fold of `a + x * y` over the zipped
components, starting from `0.`. -/
def Vector.dot (u v : Vector) : ℝ :=
  0 + u.x * v.x + u.y * v.y + u.z * v.z

/-- `Vector::cross` from `src/vector.rs`. -/
def Vector.cross (u v : Vector) : Vector :=
  ⟨u.y * v.z - u.z * v.y, u.z * v.x - u.x * v.z, u.x * v.y - u.y * v.x⟩

/-- `Vector::norm_squared` from `src/vector.rs`: `self.dot(self)`. -/
def Vector.norm_squared (u : Vector) : ℝ :=
  u.dot u

/-- `Vector::norm` from `src/vector.rs`: `self.norm_squared().sqrt()`. -/
def Vector.norm (u : Vector) : ℝ :=
  Real.sqrt u.norm_squared

/-- `Vector::null()` from `src/vector.rs`. -/
def Vector.null : Vector := ⟨0, 0, 0⟩

/-- `Vector::i()` from `src/vector.rs`. -/
def Vector.i : Vector := ⟨1, 0, 0⟩

/-- `Vector::j()` from `src/vector.rs`. -/
def Vector.j : Vector := ⟨0, 1, 0⟩

/-- `Vector::k()` from `src/vector.rs`. -/
def Vector.k : Vector := ⟨0, 0, 1⟩

/-- `impl Add for Vector` from `src/vector.rs` (component-wise). -/
instance : Add Vector := ⟨fun u v => ⟨u.x + v.x, u.y + v.y, u.z + v.z⟩⟩

/-- `impl Sub for Vector` from `src/vector.rs` (component-wise). -/
instance : Sub Vector := ⟨fun u v => ⟨u.x - v.x, u.y - v.y, u.z - v.z⟩⟩

/-- `impl Neg for Vector` from `src/vector.rs`. -/
instance : Neg Vector := ⟨fun u => ⟨-u.x, -u.y, -u.z⟩⟩

/-- `impl Mul<&Vector> for f64` from `src/vector.rs`: `rhs[i] * self`. -/
instance : HMul ℝ Vector Vector := ⟨fun s v => ⟨v.x * s, v.y * s, v.z * s⟩⟩

/-- `impl Div<f64> for Vector` from `src/vector.rs`: `self[i] / rhs`. -/
instance : HDiv Vector ℝ Vector := ⟨fun v s => ⟨v.x / s, v.y / s, v.z / s⟩⟩

@[simp] lemma Vector.add_x (u v : Vector) : (u + v).x = u.x + v.x := rfl
@[simp] lemma Vector.add_y (u v : Vector) : (u + v).y = u.y + v.y := rfl
@[simp] lemma Vector.add_z (u v : Vector) : (u + v).z = u.z + v.z := rfl
@[simp] lemma Vector.sub_x (u v : Vector) : (u - v).x = u.x - v.x := rfl
@[simp] lemma Vector.sub_y (u v : Vector) : (u - v).y = u.y - v.y := rfl
@[simp] lemma Vector.sub_z (u v : Vector) : (u - v).z = u.z - v.z := rfl
@[simp] lemma Vector.neg_x (u : Vector) : (-u).x = -u.x := rfl
@[simp] lemma Vector.neg_y (u : Vector) : (-u).y = -u.y := rfl
@[simp] lemma Vector.neg_z (u : Vector) : (-u).z = -u.z := rfl
@[simp] lemma Vector.smul_x (s : ℝ) (u : Vector) : (s * u).x = u.x * s := rfl
@[simp] lemma Vector.smul_y (s : ℝ) (u : Vector) : (s * u).y = u.y * s := rfl
@[simp] lemma Vector.smul_z (s : ℝ) (u : Vector) : (s * u).z = u.z * s := rfl
@[simp] lemma Vector.div_x (u : Vector) (s : ℝ) : (u / s).x = u.x / s := rfl
@[simp] lemma Vector.div_y (u : Vector) (s : ℝ) : (u / s).y = u.y / s := rfl
@[simp] lemma Vector.div_z (u : Vector) (s : ℝ) : (u / s).z = u.z / s := rfl

/-- Quaternion as a scalar plus a vector part, embedding `Quaternion` from
`src/quaternion.rs`. -/
@[ext]
structure Quaternion where
  scalar : ℝ
  vector : Vector

/-- `Quaternion::new` from `src/quaternion.rs`. -/
def Quaternion.new (scalar : ℝ) (vector : Vector) : Quaternion :=
  ⟨scalar, vector⟩

/-- `Quaternion::pure` from `src/quaternion.rs`: `(0, u)`. -/
def Quaternion.pure (u : Vector) : Quaternion :=
  Quaternion.new 0 u

/-- `Quaternion::unit` from `src/quaternion.rs`:
`(cos(0.5 θ), sin(0.5 θ) * v / v.norm())`. -/
def Quaternion.unit (theta : ℝ) (u : Vector) : Quaternion :=
  ⟨Real.cos (0.5 * theta), (Real.sin (0.5 * theta) * u) / u.norm⟩

/-- `Quaternion::identity` from `src/quaternion.rs`. -/
def Quaternion.identity : Quaternion :=
  Quaternion.new 1 ⟨0, 0, 0⟩

/-- `Quaternion::complex_conjugate` from `src/quaternion.rs`: `(s, -v)`. -/
def Quaternion.complex_conjugate (q : Quaternion) : Quaternion :=
  ⟨q.scalar, -q.vector⟩

/-- `Quaternion::norm_squared` from `src/quaternion.rs`. -/
def Quaternion.norm_squared (q : Quaternion) : ℝ :=
  q.scalar * q.scalar + q.vector.norm_squared

/-- `Quaternion::norm` from `src/quaternion.rs`. -/
def Quaternion.norm (q : Quaternion) : ℝ :=
  Real.sqrt q.norm_squared

/-- `impl Add for Quaternion` from `src/quaternion.rs`. -/
instance : Add Quaternion :=
  ⟨fun p q => ⟨p.scalar + q.scalar, p.vector + q.vector⟩⟩

/-- `impl Sub for Quaternion` from `src/quaternion.rs`. -/
instance : Sub Quaternion :=
  ⟨fun p q => ⟨p.scalar - q.scalar, p.vector - q.vector⟩⟩

/-- `impl Mul for Quaternion` from `src/quaternion.rs` (Hamilton product):
scalar `s₁s₂ − v₁·v₂`, vector `s₁ v₂ + s₂ v₁ + v₁ × v₂`. -/
instance : Mul Quaternion :=
  ⟨fun p q =>
    ⟨p.scalar * q.scalar - p.vector.dot q.vector,
     p.scalar * q.vector + q.scalar * p.vector + p.vector.cross q.vector⟩⟩

/-- `impl Div<f64> for Quaternion` from `src/quaternion.rs`. -/
instance : HDiv Quaternion ℝ Quaternion :=
  ⟨fun q s => ⟨q.scalar / s, q.vector / s⟩⟩

/-- `Quaternion::inverse` from `src/quaternion.rs`:
conjugate divided by the squared norm. -/
def Quaternion.inverse (q : Quaternion) : Quaternion :=
  q.complex_conjugate / q.norm_squared

@[simp] lemma Quaternion.add_scalar (p q : Quaternion) :
    (p + q).scalar = p.scalar + q.scalar := rfl
@[simp] lemma Quaternion.add_vector (p q : Quaternion) :
    (p + q).vector = p.vector + q.vector := rfl
@[simp] lemma Quaternion.sub_scalar (p q : Quaternion) :
    (p - q).scalar = p.scalar - q.scalar := rfl
@[simp] lemma Quaternion.sub_vector (p q : Quaternion) :
    (p - q).vector = p.vector - q.vector := rfl
@[simp] lemma Quaternion.mul_scalar (p q : Quaternion) :
    (p * q).scalar = p.scalar * q.scalar - p.vector.dot q.vector := rfl
@[simp] lemma Quaternion.mul_vector (p q : Quaternion) :
    (p * q).vector =
      p.scalar * q.vector + q.scalar * p.vector + p.vector.cross q.vector := rfl
@[simp] lemma Quaternion.pure_scalar (u : Vector) : (Quaternion.pure u).scalar = 0 := rfl
@[simp] lemma Quaternion.pure_vector (u : Vector) : (Quaternion.pure u).vector = u := rfl
@[simp] lemma Quaternion.conj_scalar (q : Quaternion) :
    q.complex_conjugate.scalar = q.scalar := rfl
@[simp] lemma Quaternion.conj_vector (q : Quaternion) :
    q.complex_conjugate.vector = -q.vector := rfl

/-- `f64::to_radians` as used throughout the source: `self * (PI / 180)`. -/
def toRadians (x : ℝ) : ℝ :=
  x * (Real.pi / 180)

/-- `f64::signum` on non-NaN inputs: `1.0` for non-negative values, `-1.0` for
negative ones (the sign of a floating zero is abstracted to `+0`). -/
def f64signum (x : ℝ) : ℝ :=
  if x < 0 then -1 else 1

/-- `Conic` from `src/lib.rs`: radius of curvature and conic constant. -/
structure Conic where
  radius : ℝ
  constant : ℝ

/-- `Conic::m1()` from `src/lib.rs`. -/
def Conic.m1 : Conic :=
  ⟨36, -0.9982857⟩

/-- `Conic::m2()` from `src/lib.rs`. -/
def Conic.m2 : Conic :=
  ⟨-4.1639009, -0.71692784⟩

/-- `Conic::height` from `src/lib.rs`:
`radius.signum() * rho2 / (c + (c * c - (constant + 1) * rho2).sqrt())`
with `c = radius.abs()` and `rho2 = rho * rho`. -/
def Conic.height (conic : Conic) (rho : ℝ) : ℝ :=
  let c := |conic.radius|
  let rho2 := rho * rho
  f64signum conic.radius * rho2 / (c + Real.sqrt (c * c - (conic.constant + 1) * rho2))

/-- The single error kind of the crate, `Error` from `src/lib.rs`
(`SegmentId(i32)`). -/
inductive Error where
  | SegmentId (id : ℤ) : Error
deriving DecidableEq

/-- The mirror tag (`M1` and `M2` phantom types from `src/lib.rs`), modelled as
a sum type carried as a `Segment` field in place of `PhantomData<M>`. -/
inductive Mirror where
  | M1 : Mirror
  | M2 : Mirror
deriving DecidableEq

/-- `Segment<M>` from `src/segment.rs` (same fields in `src/lib.rs`); the
phantom mirror parameter is carried as the `mirror` field.  The source
misspells the clocking field as `cloking`, which is kept. -/
structure Segment where
  id : ℤ
  height : ℝ
  beta : Option ℝ
  distance : Option ℝ
  cloking : Option ℤ
  conic : Conic
  mirror : Mirror

/-- `<Segment<M1> as SegmentTrait>::new` and `<Segment<M2> as
SegmentTrait>::new` from `src/segment.rs` (identical in `src/lib.rs`),
dispatched on the mirror tag: id 7 is the center segment, ids 1..=6 get the
per-mirror beta, distance and clocking table, anything else is
`Err(Error::SegmentId(id))`. -/
def Segment.new (m : Mirror) (id : ℤ) : Except Error Segment :=
  match m with
  | .M1 =>
    if id = 7 then
      .ok ⟨7, 3.9, none, none, none, Conic.m1, .M1⟩
    else if 1 ≤ id ∧ id ≤ 6 then
      .ok ⟨id, 3.9, some 13.601685, some 8.71, some (-60 * (id - 1)), Conic.m1, .M1⟩
    else
      .error (.SegmentId id)
  | .M2 =>
    if id = 7 then
      .ok ⟨7, 3.9 + 20.26247614, none, none, none, Conic.m2, .M2⟩
    else if 1 ≤ id ∧ id ≤ 6 then
      .ok ⟨id, 3.9 + 20.26247614, some 14.777498, some 1.08774,
           some (180 - 60 * (id - 1)), Conic.m2, .M2⟩
    else
      .error (.SegmentId id)

/-- `Segment::translation` from `src/segment.rs` (identical in `src/lib.rs`):
for `id < 7`, `(d cos(rad(90 + o)), d sin(rad(90 + o)), height + conic.height(d))`
with `o` the clocking and `d` the distance; else `(0, 0, height)`.  The
source's `Option::unwrap` calls are modelled by `Option.getD 0`; the theorem
for C10 shows the default is never taken on segments built by `new`. -/
def Segment.translation (seg : Segment) : Vector :=
  if seg.id < 7 then
    let o : ℝ := ((seg.cloking.getD 0 : ℤ) : ℝ)
    let d := seg.distance.getD 0
    let z := seg.conic.height d
    ⟨d * Real.cos (toRadians (90 + o)), d * Real.sin (toRadians (90 + o)), seg.height + z⟩
  else
    ⟨0, 0, seg.height⟩

/-- `SegmentTrait::rotation` from `src/segment.rs` (the current revision),
dispatched on the mirror tag.  M1: `unit(rad o, k) * unit(rad β, i)` for
non-center segments, `None` for the center.  M2:
`unit(rad o, k) * unit(π, j) * unit(rad β, i)` for non-center segments and
`Some(unit(rad 180, k) * unit(π, j))` for the center segment.  `unwrap` is
modelled by `Option.getD 0` as in `Segment.translation`. -/
def Segment.rotation (seg : Segment) : Option Quaternion :=
  match seg.mirror with
  | .M1 =>
    if seg.id < 7 then
      some (Quaternion.unit (toRadians ((seg.cloking.getD 0 : ℤ) : ℝ)) Vector.k *
            Quaternion.unit (toRadians (seg.beta.getD 0)) Vector.i)
    else
      none
  | .M2 =>
    if seg.id < 7 then
      some (Quaternion.unit (toRadians ((seg.cloking.getD 0 : ℤ) : ℝ)) Vector.k *
            Quaternion.unit Real.pi Vector.j *
            Quaternion.unit (toRadians (seg.beta.getD 0)) Vector.i)
    else
      some (Quaternion.unit (toRadians 180) Vector.k * Quaternion.unit Real.pi Vector.j)

/-- `SegmentTrait::rotation` from `src/lib.rs` (the v0.2 revision of the same
crate): identical to `Segment.rotation` except that the M2 center segment
returns `None`. -/
def Segment.rotationV02 (seg : Segment) : Option Quaternion :=
  match seg.mirror with
  | .M1 =>
    if seg.id < 7 then
      some (Quaternion.unit (toRadians ((seg.cloking.getD 0 : ℤ) : ℝ)) Vector.k *
            Quaternion.unit (toRadians (seg.beta.getD 0)) Vector.i)
    else
      none
  | .M2 =>
    if seg.id < 7 then
      some (Quaternion.unit (toRadians ((seg.cloking.getD 0 : ℤ) : ℝ)) Vector.k *
            Quaternion.unit Real.pi Vector.j *
            Quaternion.unit (toRadians (seg.beta.getD 0)) Vector.i)
    else
      none

/-- `Segment::translation` with the source's `unwrap` calls made explicit as
`Option` binds: `none` marks the panic that `unwrap` would raise.  Used to
state C10 (every internal unwrap succeeds on segments built by `new`). -/
def Segment.translationChecked (seg : Segment) : Option Vector :=
  if seg.id < 7 then
    seg.cloking.bind fun o =>
      seg.distance.map fun d =>
        ⟨d * Real.cos (toRadians (90 + (o : ℝ))),
         d * Real.sin (toRadians (90 + (o : ℝ))),
         seg.height + seg.conic.height d⟩
  else
    some ⟨0, 0, seg.height⟩

/-- `SegmentTrait::rotation` (current revision) with the source's `unwrap`
calls made explicit as `Option` binds, as in `Segment.translationChecked`. -/
def Segment.rotationChecked (seg : Segment) : Option (Option Quaternion) :=
  match seg.mirror with
  | .M1 =>
    if seg.id < 7 then
      seg.cloking.bind fun o =>
        seg.beta.map fun b =>
          some (Quaternion.unit (toRadians (o : ℝ)) Vector.k *
                Quaternion.unit (toRadians b) Vector.i)
    else
      some none
  | .M2 =>
    if seg.id < 7 then
      seg.cloking.bind fun o =>
        seg.beta.map fun b =>
          some (Quaternion.unit (toRadians (o : ℝ)) Vector.k *
                Quaternion.unit Real.pi Vector.j *
                Quaternion.unit (toRadians b) Vector.i)
    else
      some (some (Quaternion.unit (toRadians 180) Vector.k *
                  Quaternion.unit Real.pi Vector.j))

/-- `Transform::to` from `src/transform.rs` for `Vector` payloads: with
`t = segment.translation()`, if a rotation `q` is present return the vector
part of `q * pure(u) * q.complex_conjugate() + pure(t)`, else `u + t`. -/
def Vector.to (u : Vector) (seg : Segment) : Vector :=
  let t := seg.translation
  match seg.rotation with
  | some q => (q * Quaternion.pure u * q.complex_conjugate + Quaternion.pure t).vector
  | none => u + t

/-- `Transform::fro` from `src/transform.rs` for `Vector` payloads: if a
rotation `q` is present return the vector part of
`q.complex_conjugate() * pure(u - t) * q`, else `u - t`. -/
def Vector.fro (u : Vector) (seg : Segment) : Vector :=
  let t := seg.translation
  match seg.rotation with
  | some q => (q.complex_conjugate * Quaternion.pure (u - t) * q).vector
  | none => u - t

/-- `Transform::vtov` from `src/transform.rs` for `Vector` payloads. -/
def Vector.vtov (u : Vector) (seg : Segment) : Vector :=
  match seg.rotation with
  | some q => (q * Quaternion.pure u * q.complex_conjugate).vector
  | none => u

/-- `Transform::vfrov` from `src/transform.rs` for `Vector` payloads. -/
def Vector.vfrov (u : Vector) (seg : Segment) : Vector :=
  match seg.rotation with
  | some q => (q.complex_conjugate * Quaternion.pure u * q).vector
  | none => u

/-- The `[f64; 3]` payload shape of the `Transform` impls. -/
abbrev Arr3 : Type := ℝ × ℝ × ℝ

/-- `From<[f64; 3]> for Vector` from `src/vector.rs`. -/
def arrToVec (a : Arr3) : Vector :=
  ⟨a.1, a.2.1, a.2.2⟩

/-- Conversion of a `Vector` back into `[f64; 3]` (the `Vector: Into<Self>`
bound of the `Transform` trait). -/
def vecToArr (v : Vector) : Arr3 :=
  (v.x, v.y, v.z)

/-- `Transform::to` for `[f64; 3]`: the trait default method converts the
payload into a `Vector`, computes, and converts back. -/
def Arr3.to (u : Arr3) (seg : Segment) : Arr3 :=
  vecToArr ((arrToVec u).to seg)

/-- `Transform::fro` for `[f64; 3]`. -/
def Arr3.fro (u : Arr3) (seg : Segment) : Arr3 :=
  vecToArr ((arrToVec u).fro seg)

/-- `Transform::vtov` for `[f64; 3]`. -/
def Arr3.vtov (u : Arr3) (seg : Segment) : Arr3 :=
  vecToArr ((arrToVec u).vtov seg)

/-- `Transform::vfrov` for `[f64; 3]`. -/
def Arr3.vfrov (u : Arr3) (seg : Segment) : Arr3 :=
  vecToArr ((arrToVec u).vfrov seg)

/-- `TransformMut::to` for `&mut [f64; 3]` from `src/transform.rs`: the
mutating impl copies the payload (`to_owned`), runs the functional `to`, and
replaces the contents; the value returned here is the final state of the
mutated triple. -/
def Arr3.toMut (u : Arr3) (seg : Segment) : Arr3 :=
  Arr3.to u seg

/-- `TransformMut::fro` for `&mut [f64; 3]` (final state). -/
def Arr3.froMut (u : Arr3) (seg : Segment) : Arr3 :=
  Arr3.fro u seg

/-- `TransformMut::vtov` for `&mut [f64; 3]` (final state). -/
def Arr3.vtovMut (u : Arr3) (seg : Segment) : Arr3 :=
  Arr3.vtov u seg

/-- `TransformMut::vfrov` for `&mut [f64; 3]` (final state). -/
def Arr3.vfrovMut (u : Arr3) (seg : Segment) : Arr3 :=
  Arr3.vfrov u seg

/-- Spec table (section 3): per-mirror segment distance `d`. -/
def mirrorDistance : Mirror → ℝ
  | .M1 => 8.71
  | .M2 => 1.08774

/-- Spec table (section 3): per-mirror vertex height. -/
def mirrorHeight : Mirror → ℝ
  | .M1 => 3.9
  | .M2 => 3.9 + 20.26247614

/-- Spec table (section 3): per-mirror clocking in degrees for ids 1..=6. -/
def mirrorClocking (m : Mirror) (id : ℤ) : ℤ :=
  match m with
  | .M1 => -60 * (id - 1)
  | .M2 => 180 - 60 * (id - 1)

/-- Spec table (section 3): per-mirror conic. -/
def mirrorConic : Mirror → Conic
  | .M1 => Conic.m1
  | .M2 => Conic.m2

/-- IEEE-754-flavoured value domain for `f64` effects: NaN, signed infinities
(`true` = negative), and finite values carried as exact reals.  The sign of a
floating zero and overflow of finite results are abstracted away; NaN creation
and propagation follow IEEE 754, which is what claim C7 is about. -/
inductive Fl where
  | nan : Fl
  | inf : Bool → Fl
  | fin : ℝ → Fl

/-- IEEE addition on `Fl`: NaN propagates, opposite infinities give NaN. -/
def Fl.add : Fl → Fl → Fl
  | .nan, _ => .nan
  | _, .nan => .nan
  | .inf s, .inf t => if s = t then .inf s else .nan
  | .inf s, .fin _ => .inf s
  | .fin _, .inf t => .inf t
  | .fin a, .fin b => .fin (a + b)

/-- IEEE subtraction on `Fl`. -/
def Fl.sub : Fl → Fl → Fl
  | .nan, _ => .nan
  | _, .nan => .nan
  | .inf s, .inf t => if s = t then .nan else .inf s
  | .inf s, .fin _ => .inf s
  | .fin _, .inf t => .inf (!t)
  | .fin a, .fin b => .fin (a - b)

/-- IEEE multiplication on `Fl`: NaN propagates, `∞ * 0` gives NaN. -/
def Fl.mul : Fl → Fl → Fl
  | .nan, _ => .nan
  | _, .nan => .nan
  | .inf s, .inf t => .inf (xor s t)
  | .inf s, .fin b => if b = 0 then .nan else .inf (xor s (decide (b < 0)))
  | .fin a, .inf t => if a = 0 then .nan else .inf (xor (decide (a < 0)) t)
  | .fin a, .fin b => .fin (a * b)

/-- IEEE division on `Fl`: `0 / 0` and `∞ / ∞` give NaN, `x / 0` gives a
signed infinity for nonzero finite `x`, `x / ∞` gives zero. -/
def Fl.div : Fl → Fl → Fl
  | .nan, _ => .nan
  | _, .nan => .nan
  | .inf _, .inf _ => .nan
  | .inf s, .fin b => .inf (xor s (decide (b < 0)))
  | .fin _, .inf _ => .fin 0
  | .fin a, .fin b =>
    if b = 0 then (if a = 0 then .nan else .inf (decide (a < 0))) else .fin (a / b)

/-- IEEE square root on `Fl`: NaN for negative arguments and `-∞`. -/
def Fl.sqrt : Fl → Fl
  | .nan => .nan
  | .inf s => if s then .nan else .inf false
  | .fin a => if a < 0 then .nan else .fin (Real.sqrt a)

/-- IEEE absolute value on `Fl`. -/
def Fl.abs : Fl → Fl
  | .nan => .nan
  | .inf _ => .inf false
  | .fin a => .fin |a|

/-- `f64::signum` on `Fl`: NaN stays NaN, otherwise `±1`. -/
def Fl.signum : Fl → Fl
  | .nan => .nan
  | .inf s => .fin (if s then -1 else 1)
  | .fin a => .fin (if a < 0 then -1 else 1)

/-- `f64::sin` on `Fl`: NaN on NaN and infinities. -/
def Fl.sin : Fl → Fl
  | .nan => .nan
  | .inf _ => .nan
  | .fin a => .fin (Real.sin a)

/-- `f64::cos` on `Fl`: NaN on NaN and infinities. -/
def Fl.cos : Fl → Fl
  | .nan => .nan
  | .inf _ => .nan
  | .fin a => .fin (Real.cos a)

/-- A 3-component vector of `Fl` values. -/
structure VecFl where
  x : Fl
  y : Fl
  z : Fl

/-- A quaternion of `Fl` values (scalar plus vector part). -/
structure QuatFl where
  scalar : Fl
  vector : VecFl

/-- `Vector::dot` reinterpreted over `Fl` (same fold as `src/vector.rs`). -/
def VecFl.dot (u v : VecFl) : Fl :=
  (((Fl.fin 0).add (u.x.mul v.x)).add (u.y.mul v.y)).add (u.z.mul v.z)

/-- `Vector::norm` reinterpreted over `Fl`. -/
def VecFl.norm (u : VecFl) : Fl :=
  (u.dot u).sqrt

/-- `Quaternion::unit` from `src/quaternion.rs` reinterpreted over `Fl`:
`(cos(0.5 θ), sin(0.5 θ) * v / v.norm())` with IEEE semantics. -/
def QuatFl.unit (theta : Fl) (u : VecFl) : QuatFl :=
  let n := u.norm
  let s := ((Fl.fin 0.5).mul theta).sin
  ⟨((Fl.fin 0.5).mul theta).cos,
   ⟨((u.x.mul s).div n), ((u.y.mul s).div n), ((u.z.mul s).div n)⟩⟩

/-- `Conic::height` from `src/lib.rs` reinterpreted over `Fl` with IEEE
semantics: `radius.signum() * rho2 / (c + (c*c - (constant + 1) * rho2).sqrt())`
with `c = radius.abs()` and `rho2 = rho * rho`. -/
def Conic.heightFl (radius constant rho : Fl) : Fl :=
  let c := radius.abs
  let rho2 := rho.mul rho
  (radius.signum.mul rho2).div
    (c.add ((c.mul c).sub ((constant.add (.fin 1)).mul rho2)).sqrt)

/-- Bit-pattern-level model of an `f64` used only for comparison semantics:
a sign bit, a NaN flag and an exact magnitude.  Two values represent the same
bit pattern exactly when the structures are equal (NaN payloads are collapsed
to one pattern, which is all claim C9 distinguishes). -/
structure F64 where
  sign : Bool
  isNan : Bool
  mag : ℚ
deriving DecidableEq

/-- IEEE `f64` equality (`==` in Rust): false if either side is NaN, true for
`+0 == -0`, otherwise same sign and magnitude. -/
def F64.ieeeEq (a b : F64) : Bool :=
  !a.isNan && !b.isNan &&
    ((decide (a.mag = 0) && decide (b.mag = 0)) ||
     (a.sign == b.sign && decide (a.mag = b.mag)))

/-- A 3-component vector of `F64` bit patterns. -/
structure VectorF where
  x : F64
  y : F64
  z : F64
deriving DecidableEq

/-- The component list of a `VectorF` (the `[f64; 3]` payload). -/
def VectorF.toList (u : VectorF) : List F64 :=
  [u.x, u.y, u.z]

/-- `impl PartialEq for Vector` from `src/vector.rs`:
`zip` the components and `fold(true, |a, (x, y)| a && x == y)` with `==` the
IEEE `f64` equality. -/
def VectorF.eq (u v : VectorF) : Bool :=
  (u.toList.zip v.toList).foldl (fun a p => a && F64.ieeeEq p.1 p.2) true

/-! ### Helper lemmas -/

lemma Quaternion.mul_assoc (p q r : Quaternion) : p * q * r = p * (q * r) := by
  obtain ⟨ps, px, py, pz⟩ := p
  obtain ⟨qs, qx, qy, qz⟩ := q
  obtain ⟨rs, rx, ry, rz⟩ := r
  ext <;> simp [Vector.dot, Vector.cross] <;> ring

lemma Quaternion.norm_squared_mul (p q : Quaternion) :
    (p * q).norm_squared = p.norm_squared * q.norm_squared := by
  obtain ⟨ps, px, py, pz⟩ := p
  obtain ⟨qs, qx, qy, qz⟩ := q
  simp [Quaternion.norm_squared, Vector.norm_squared, Vector.dot, Vector.cross]
  ring

lemma Quaternion.unit_norm_squared (theta : ℝ) (a : Vector) (h : a.dot a = 1) :
    (Quaternion.unit theta a).norm_squared = 1 := by
  have hn : a.norm = 1 := by
    rw [Vector.norm, Vector.norm_squared, h]
    exact Real.sqrt_one
  have hp := Real.sin_sq_add_cos_sq (0.5 * theta)
  rw [Vector.dot] at h
  simp only [Quaternion.unit, Quaternion.norm_squared, Vector.norm_squared, Vector.dot,
    hn, Vector.div_x, Vector.div_y, Vector.div_z, Vector.smul_x, Vector.smul_y, Vector.smul_z,
    div_one]
  linear_combination (Real.sin (0.5 * theta)) ^ 2 * h + hp

lemma Vector.dot_i_i : Vector.i.dot Vector.i = 1 := by
  norm_num [Vector.dot, Vector.i]

lemma Vector.dot_j_j : Vector.j.dot Vector.j = 1 := by
  norm_num [Vector.dot, Vector.j]

lemma Vector.dot_k_k : Vector.k.dot Vector.k = 1 := by
  norm_num [Vector.dot, Vector.k]

/-- Every rotation quaternion a `Segment` can return is a unit quaternion:
it is a product of `Quaternion::unit` values on the unit axes i, j, k. -/
lemma Segment.rotation_norm_squared (seg : Segment) (q : Quaternion)
    (h : seg.rotation = some q) : q.norm_squared = 1 := by
  obtain ⟨id, height, beta, distance, cloking, conic, mirror⟩ := seg
  cases mirror <;> simp only [Segment.rotation] at h
  · split at h
    · injection h with h
      subst h
      rw [Quaternion.norm_squared_mul,
        Quaternion.unit_norm_squared _ _ Vector.dot_k_k,
        Quaternion.unit_norm_squared _ _ Vector.dot_i_i]
      norm_num
    · exact Option.noConfusion h
  · split at h
    · injection h with h
      subst h
      rw [Quaternion.norm_squared_mul, Quaternion.norm_squared_mul,
        Quaternion.unit_norm_squared _ _ Vector.dot_k_k,
        Quaternion.unit_norm_squared _ _ Vector.dot_j_j,
        Quaternion.unit_norm_squared _ _ Vector.dot_i_i]
      norm_num
    · injection h with h
      subst h
      rw [Quaternion.norm_squared_mul,
        Quaternion.unit_norm_squared _ _ Vector.dot_k_k,
        Quaternion.unit_norm_squared _ _ Vector.dot_j_j]
      norm_num

/-- The scalar part of `q * pure(u) * conj(q)` vanishes identically. -/
lemma Quaternion.sandwich_scalar (q : Quaternion) (u : Vector) :
    (q * Quaternion.pure u * q.complex_conjugate).scalar = 0 := by
  obtain ⟨s, x, y, z⟩ := q
  obtain ⟨a, b, c⟩ := u
  simp [Quaternion.pure, Quaternion.new, Quaternion.complex_conjugate,
    Vector.dot, Vector.cross]
  ring

lemma Quaternion.conj_mul_self (q : Quaternion) :
    q.complex_conjugate * q = ⟨q.norm_squared, ⟨0, 0, 0⟩⟩ := by
  obtain ⟨s, x, y, z⟩ := q
  ext <;>
    simp [Quaternion.complex_conjugate, Quaternion.norm_squared, Vector.norm_squared,
      Vector.dot, Vector.cross] <;>
    ring

lemma Quaternion.id_mul (p : Quaternion) : (⟨1, ⟨0, 0, 0⟩⟩ : Quaternion) * p = p := by
  obtain ⟨s, x, y, z⟩ := p
  ext <;> simp [Vector.dot, Vector.cross]

lemma Quaternion.mul_id (p : Quaternion) : p * (⟨1, ⟨0, 0, 0⟩⟩ : Quaternion) = p := by
  obtain ⟨s, x, y, z⟩ := p
  ext <;> simp [Vector.dot, Vector.cross]

/-- Conjugating by a unit quaternion and back recovers the vector: the
algebraic heart of the `to`/`fro` round trip. -/
lemma Quaternion.sandwich_roundtrip (q : Quaternion) (hq : q.norm_squared = 1)
    (u : Vector) :
    (q.complex_conjugate *
      Quaternion.pure ((q * Quaternion.pure u * q.complex_conjugate).vector) *
      q).vector = u := by
  have h0 : Quaternion.pure ((q * Quaternion.pure u * q.complex_conjugate).vector) =
      q * Quaternion.pure u * q.complex_conjugate := by
    ext
    · exact (Quaternion.sandwich_scalar q u).symm
    · rfl
    · rfl
    · rfl
  rw [h0]
  have hassoc : q.complex_conjugate * (q * Quaternion.pure u * q.complex_conjugate) * q =
      q.complex_conjugate * q * Quaternion.pure u * (q.complex_conjugate * q) := by
    rw [← Quaternion.mul_assoc q.complex_conjugate (q * Quaternion.pure u)
      q.complex_conjugate]
    rw [← Quaternion.mul_assoc q.complex_conjugate q (Quaternion.pure u)]
    rw [Quaternion.mul_assoc (q.complex_conjugate * q * Quaternion.pure u)
      q.complex_conjugate q]
  rw [hassoc, Quaternion.conj_mul_self, hq, Quaternion.id_mul, Quaternion.mul_id]
  rfl

lemma Vector.add_sub_cancel (a b : Vector) : a + b - b = a := by
  ext <;> simp

/-- The `to`-then-`fro` round trip is exact in the real-arithmetic model, for
every segment (the rotation, when present, is a unit quaternion). -/
lemma to_fro_exact (seg : Segment) (u : Vector) : (u.to seg).fro seg = u := by
  cases hr : seg.rotation with
  | none =>
    simp only [Vector.to, Vector.fro, hr]
    exact Vector.add_sub_cancel u seg.translation
  | some q =>
    simp only [Vector.to, Vector.fro, hr]
    have ht : (q * Quaternion.pure u * q.complex_conjugate +
        Quaternion.pure seg.translation).vector - seg.translation =
        (q * Quaternion.pure u * q.complex_conjugate).vector := by
      show ((q * Quaternion.pure u * q.complex_conjugate).vector + seg.translation) -
        seg.translation = _
      exact Vector.add_sub_cancel _ _
    rw [ht]
    exact Quaternion.sandwich_roundtrip q (Segment.rotation_norm_squared seg q hr) u

/-! ### Claim theorems -/

/-- C1: for every mirror M in `{M1, M2}`, every segment id in 1..7 (i.e. every
segment successfully built by `Segment::new`), and every point u, the point
transform round trip `u.to(seg).fro(seg)` returns a vector equal to u within
1e-12 absolute in every component (exactly, in the real-arithmetic model). -/
theorem to_fro_roundtrip (m : Mirror) (id : ℤ) (seg : Segment)
    (h : Segment.new m id = Except.ok seg) (u : Vector) :
    |((u.to seg).fro seg).x - u.x| ≤ 1e-12 ∧
    |((u.to seg).fro seg).y - u.y| ≤ 1e-12 ∧
    |((u.to seg).fro seg).z - u.z| ≤ 1e-12 := by
  rw [to_fro_exact seg u]
  norm_num

/-- Witness for C1 at mirror M1, segment id 7, u = (1, 2, 3). -/
theorem to_fro_roundtrip_witness :
    Segment.new Mirror.M1 7 =
      Except.ok (⟨7, 3.9, none, none, none, Conic.m1, Mirror.M1⟩ : Segment) ∧
    (|(((⟨1, 2, 3⟩ : Vector).to
          (⟨7, 3.9, none, none, none, Conic.m1, Mirror.M1⟩ : Segment)).fro
          (⟨7, 3.9, none, none, none, Conic.m1, Mirror.M1⟩ : Segment)).x - 1| ≤ 1e-12 ∧
     |(((⟨1, 2, 3⟩ : Vector).to
          (⟨7, 3.9, none, none, none, Conic.m1, Mirror.M1⟩ : Segment)).fro
          (⟨7, 3.9, none, none, none, Conic.m1, Mirror.M1⟩ : Segment)).y - 2| ≤ 1e-12 ∧
     |(((⟨1, 2, 3⟩ : Vector).to
          (⟨7, 3.9, none, none, none, Conic.m1, Mirror.M1⟩ : Segment)).fro
          (⟨7, 3.9, none, none, none, Conic.m1, Mirror.M1⟩ : Segment)).z - 3| ≤ 1e-12) :=
  ⟨rfl, to_fro_roundtrip Mirror.M1 7
    (⟨7, 3.9, none, none, none, Conic.m1, Mirror.M1⟩ : Segment) rfl ⟨1, 2, 3⟩⟩

/-- C2 counterexample: in the current revision (`src/segment.rs`),
`Segment::<M2>::new(7).rotation()` does NOT return `None`; the claim that the
M2 center segment has no rotation quaternion fails on that code. -/
theorem m2_center_rotation_not_none :
    (Segment.new Mirror.M2 7).map Segment.rotation ≠ Except.ok none := by
  simp [Segment.new, Except.map, Segment.rotation]

/-- C2 amended: `Segment::<M2>::new(7).rotation()` returns
`Some(unit(rad 180, k) * unit(π, j))` in the current `src/segment.rs`
revision (so the four transforms apply this rotation at the M2 center
segment), while the older `src/lib.rs` revision returns `None` and skips the
rotation step. -/
theorem m2_center_rotation_by_revision :
    (Segment.new Mirror.M2 7).map Segment.rotation =
      Except.ok (some (Quaternion.unit (toRadians 180) Vector.k *
        Quaternion.unit Real.pi Vector.j)) ∧
    (Segment.new Mirror.M2 7).map Segment.rotationV02 = Except.ok none :=
  ⟨rfl, rfl⟩

/-- C3: for every mirror and every id in 1..6, the translation of the segment
built by `new` is `(d cos(rad(90 + c)), d sin(rad(90 + c)), height +
conic.height(d))` with `c` the clocking in degrees and `d` the distance from
the per-mirror table; for id = 7 it is `(0, 0, height)`.  In particular the
z-component of a non-center segment includes the conic sag on both mirrors. -/
theorem translation_formula (m : Mirror) (id : ℤ) (seg : Segment)
    (h : Segment.new m id = Except.ok seg) :
    (1 ≤ id → id ≤ 6 →
      seg.translation =
        ⟨mirrorDistance m * Real.cos (toRadians (90 + (mirrorClocking m id : ℝ))),
         mirrorDistance m * Real.sin (toRadians (90 + (mirrorClocking m id : ℝ))),
         mirrorHeight m + (mirrorConic m).height (mirrorDistance m)⟩) ∧
    (id = 7 → seg.translation = ⟨0, 0, mirrorHeight m⟩) := by
  cases m <;> simp only [Segment.new] at h
  · split at h
    · rename_i hc
      injection h with h
      subst h
      constructor
      · intro h1 h6
        omega
      · intro _
        simp [Segment.translation, mirrorHeight]
    · rename_i hc
      split at h
      · rename_i hc2
        injection h with h
        subst h
        constructor
        · intro h1 h6
          have hlt : id < 7 := by omega
          simp [Segment.translation, hlt, mirrorDistance, mirrorClocking, mirrorHeight,
            mirrorConic]
        · intro h7
          exact absurd h7 hc
      · exact Except.noConfusion h
  · split at h
    · rename_i hc
      injection h with h
      subst h
      constructor
      · intro h1 h6
        omega
      · intro _
        simp [Segment.translation, mirrorHeight]
    · rename_i hc
      split at h
      · rename_i hc2
        injection h with h
        subst h
        constructor
        · intro h1 h6
          have hlt : id < 7 := by omega
          simp [Segment.translation, hlt, mirrorDistance, mirrorClocking, mirrorHeight,
            mirrorConic]
        · intro h7
          exact absurd h7 hc
      · exact Except.noConfusion h

/-- Witness for C3 at mirror M1, segment id 1. -/
theorem translation_formula_witness :
    Segment.new Mirror.M1 1 =
      Except.ok (⟨1, 3.9, some 13.601685, some 8.71, some (-60 * (1 - 1)), Conic.m1,
        Mirror.M1⟩ : Segment) ∧
    (⟨1, 3.9, some 13.601685, some 8.71, some (-60 * (1 - 1)), Conic.m1,
        Mirror.M1⟩ : Segment).translation =
      ⟨mirrorDistance Mirror.M1 *
         Real.cos (toRadians (90 + (mirrorClocking Mirror.M1 1 : ℝ))),
       mirrorDistance Mirror.M1 *
         Real.sin (toRadians (90 + (mirrorClocking Mirror.M1 1 : ℝ))),
       mirrorHeight Mirror.M1 +
         (mirrorConic Mirror.M1).height (mirrorDistance Mirror.M1)⟩ :=
  ⟨rfl, (translation_formula Mirror.M1 1
      (⟨1, 3.9, some 13.601685, some 8.71, some (-60 * (1 - 1)), Conic.m1,
        Mirror.M1⟩ : Segment) rfl).1 (by decide) (by decide)⟩

/-- C4: for mirror M1 and segment id 7, the point transforms reduce to a pure
translation by (0, 0, 3.9): `to` adds and `fro` subtracts it component-wise,
and no rotation quaternion is constructed (`rotation()` is `None`). -/
theorem m1_center_pure_translation (seg : Segment)
    (h : Segment.new Mirror.M1 7 = Except.ok seg) (u : Vector) :
    u.to seg = ⟨u.x + 0, u.y + 0, u.z + 3.9⟩ ∧
    u.fro seg = ⟨u.x - 0, u.y - 0, u.z - 3.9⟩ ∧
    seg.rotation = none := by
  have hseg : seg = ⟨7, 3.9, none, none, none, Conic.m1, Mirror.M1⟩ := by
    simp only [Segment.new] at h
    split at h
    · injection h with h
      exact h.symm
    · rename_i hc
      simp at hc
  subst hseg
  refine ⟨?_, ?_, rfl⟩
  · ext <;> simp [Vector.to, Segment.rotation, Segment.translation]
  · ext <;> simp [Vector.fro, Segment.rotation, Segment.translation]

/-- Witness for C4 at u = (1, 2, 3). -/
theorem m1_center_pure_translation_witness :
    Segment.new Mirror.M1 7 =
      Except.ok (⟨7, 3.9, none, none, none, Conic.m1, Mirror.M1⟩ : Segment) ∧
    ((⟨1, 2, 3⟩ : Vector).to
        (⟨7, 3.9, none, none, none, Conic.m1, Mirror.M1⟩ : Segment) =
      ⟨1 + 0, 2 + 0, 3 + 3.9⟩ ∧
     (⟨1, 2, 3⟩ : Vector).fro
        (⟨7, 3.9, none, none, none, Conic.m1, Mirror.M1⟩ : Segment) =
      ⟨1 - 0, 2 - 0, 3 - 3.9⟩ ∧
     (⟨7, 3.9, none, none, none, Conic.m1, Mirror.M1⟩ : Segment).rotation = none) :=
  ⟨rfl, m1_center_pure_translation
    (⟨7, 3.9, none, none, none, Conic.m1, Mirror.M1⟩ : Segment) rfl ⟨1, 2, 3⟩⟩

/-- C5: for each of the four transform operations and every segment built by
`new`, the mutating flavor (`TransformMut` on `&mut [f64; 3]`) leaves in place
exactly the values the functional flavor (`Transform` on `[f64; 3]`) returns:
the mutating impls copy the payload, run the functional code, and write the
result back, so the agreement is definitional. -/
theorem mut_matches_functional (m : Mirror) (id : ℤ) (seg : Segment)
    (h : Segment.new m id = Except.ok seg) (u : Arr3) :
    Arr3.toMut u seg = Arr3.to u seg ∧
    Arr3.froMut u seg = Arr3.fro u seg ∧
    Arr3.vtovMut u seg = Arr3.vtov u seg ∧
    Arr3.vfrovMut u seg = Arr3.vfrov u seg :=
  ⟨rfl, rfl, rfl, rfl⟩

/-- Witness for C5 at mirror M1, segment id 7, input (1, 2, 3). -/
theorem mut_matches_functional_witness :
    Segment.new Mirror.M1 7 =
      Except.ok (⟨7, 3.9, none, none, none, Conic.m1, Mirror.M1⟩ : Segment) ∧
    (Arr3.toMut ((1 : ℝ), (2 : ℝ), (3 : ℝ))
        (⟨7, 3.9, none, none, none, Conic.m1, Mirror.M1⟩ : Segment) =
      Arr3.to ((1 : ℝ), (2 : ℝ), (3 : ℝ))
        (⟨7, 3.9, none, none, none, Conic.m1, Mirror.M1⟩ : Segment) ∧
     Arr3.froMut ((1 : ℝ), (2 : ℝ), (3 : ℝ))
        (⟨7, 3.9, none, none, none, Conic.m1, Mirror.M1⟩ : Segment) =
      Arr3.fro ((1 : ℝ), (2 : ℝ), (3 : ℝ))
        (⟨7, 3.9, none, none, none, Conic.m1, Mirror.M1⟩ : Segment) ∧
     Arr3.vtovMut ((1 : ℝ), (2 : ℝ), (3 : ℝ))
        (⟨7, 3.9, none, none, none, Conic.m1, Mirror.M1⟩ : Segment) =
      Arr3.vtov ((1 : ℝ), (2 : ℝ), (3 : ℝ))
        (⟨7, 3.9, none, none, none, Conic.m1, Mirror.M1⟩ : Segment) ∧
     Arr3.vfrovMut ((1 : ℝ), (2 : ℝ), (3 : ℝ))
        (⟨7, 3.9, none, none, none, Conic.m1, Mirror.M1⟩ : Segment) =
      Arr3.vfrov ((1 : ℝ), (2 : ℝ), (3 : ℝ))
        (⟨7, 3.9, none, none, none, Conic.m1, Mirror.M1⟩ : Segment)) :=
  ⟨rfl, mut_matches_functional Mirror.M1 7
    (⟨7, 3.9, none, none, none, Conic.m1, Mirror.M1⟩ : Segment) rfl
    ((1 : ℝ), (2 : ℝ), (3 : ℝ))⟩

/-- C6: for every mirror and every integer id, `Segment::new` returns the
invalid-segment-id error carrying the id exactly when the id is outside 1..7,
and succeeds for ids in 1..7. -/
theorem new_invalid_segment_id (m : Mirror) (i : ℤ) :
    ((1 ≤ i ∧ i ≤ 7) → (Segment.new m i).isOk = true) ∧
    (¬(1 ≤ i ∧ i ≤ 7) → Segment.new m i = Except.error (Error.SegmentId i)) := by
  constructor
  · intro hin
    cases m <;> simp only [Segment.new] <;> split
    · rfl
    · split
      · rfl
      · rename_i hc hc2
        omega
    · rfl
    · split
      · rfl
      · rename_i hc hc2
        omega
  · intro hout
    cases m <;> simp only [Segment.new] <;> split
    · rename_i hc
      omega
    · split
      · rename_i hc hc2
        omega
      · rfl
    · rename_i hc
      omega
    · split
      · rename_i hc hc2
        omega
      · rfl

/-- Witness for C6 at ids 0 (invalid) and 3 (valid) on mirror M1. -/
theorem new_invalid_segment_id_witness :
    Segment.new Mirror.M1 0 = Except.error (Error.SegmentId 0) ∧
    (Segment.new Mirror.M1 3).isOk = true :=
  ⟨(new_invalid_segment_id Mirror.M1 0).2 (by decide),
   (new_invalid_segment_id Mirror.M1 3).1 (by decide)⟩

/-- C7: no operation other than `Segment::new` fails.  In the IEEE-flavoured
model, `Quaternion::unit` called with the zero axis completes and returns a
quaternion whose vector components are NaN (0/0), and `Conic::height` called
outside its domain (`(k+1) ρ² > R²`) completes and returns NaN
(square root of a negative value), rather than raising an error or
panicking. -/
theorem unit_zero_axis_conic_domain_nan :
    (∀ theta : ℝ, QuatFl.unit (Fl.fin theta) ⟨Fl.fin 0, Fl.fin 0, Fl.fin 0⟩ =
      ⟨Fl.fin (Real.cos (0.5 * theta)), ⟨Fl.nan, Fl.nan, Fl.nan⟩⟩) ∧
    (∀ R k rho : ℝ, R * R < (k + 1) * (rho * rho) →
      Conic.heightFl (Fl.fin R) (Fl.fin k) (Fl.fin rho) = Fl.nan) := by
  constructor
  · intro theta
    simp [QuatFl.unit, VecFl.norm, VecFl.dot, Fl.mul, Fl.add, Fl.sin, Fl.cos, Fl.sqrt,
      Fl.div, Real.sqrt_zero]
  · intro R k rho hdom
    have hneg : |R| * |R| - (k + 1) * (rho * rho) < 0 := by
      rw [abs_mul_abs_self]
      linarith
    simp [Conic.heightFl, Fl.abs, Fl.mul, Fl.add, Fl.sub, Fl.sqrt, Fl.signum, Fl.div,
      hneg, hdom]

/-- Witness for C7's conic conjunct at R = 0, k = 0, ρ = 1 (the unit conjunct
has no hypothesis). -/
theorem unit_zero_axis_conic_domain_nan_witness :
    ((0 : ℝ) * 0 < (0 + 1) * (1 * 1)) ∧
    Conic.heightFl (Fl.fin (0 : ℝ)) (Fl.fin (0 : ℝ)) (Fl.fin (1 : ℝ)) = Fl.nan :=
  ⟨by simp, unit_zero_axis_conic_domain_nan.2 0 0 1 (by simp)⟩

/-- C8: for p = (3, (1,-2,1)) and q = (2, (-1,2,3)), quaternion addition gives
(5, (0,0,4)) and the Hamilton product gives (8, (-9,-2,11)), exactly. -/
theorem quaternion_hamilton_examples :
    Quaternion.new 3 ⟨1, -2, 1⟩ + Quaternion.new 2 ⟨-1, 2, 3⟩ =
      Quaternion.new 5 ⟨0, 0, 4⟩ ∧
    Quaternion.new 3 ⟨1, -2, 1⟩ * Quaternion.new 2 ⟨-1, 2, 3⟩ =
      Quaternion.new 8 ⟨-9, -2, 11⟩ := by
  constructor <;> (ext <;> simp [Quaternion.new, Vector.dot, Vector.cross] <;> norm_num)

/-- C9 counterexample: `Vector`'s `PartialEq` is IEEE `f64` equality, not
bitwise equality: the all-components-(-0.0) vector compares equal to the
all-components-(+0.0) vector although their bit patterns differ, refuting the
claimed equivalence at that input. -/
theorem vector_eq_not_bitwise :
    ¬ (VectorF.eq ⟨⟨true, false, 0⟩, ⟨true, false, 0⟩, ⟨true, false, 0⟩⟩
         ⟨⟨false, false, 0⟩, ⟨false, false, 0⟩, ⟨false, false, 0⟩⟩ = true ↔
       (⟨⟨true, false, 0⟩, ⟨true, false, 0⟩, ⟨true, false, 0⟩⟩ : VectorF) =
         ⟨⟨false, false, 0⟩, ⟨false, false, 0⟩, ⟨false, false, 0⟩⟩) := by
  decide

/-- C9 amended: `Vector` equality compares the two vectors component by
component with IEEE-754 `f64` equality (`==`), so -0.0 equals +0.0 and a
vector with a NaN component does not equal any vector, itself included. -/
theorem vector_eq_ieee_semantics :
    (∀ u v : VectorF,
      VectorF.eq u v =
        (F64.ieeeEq u.x v.x && F64.ieeeEq u.y v.y && F64.ieeeEq u.z v.z)) ∧
    VectorF.eq ⟨⟨true, false, 0⟩, ⟨true, false, 0⟩, ⟨true, false, 0⟩⟩
      ⟨⟨false, false, 0⟩, ⟨false, false, 0⟩, ⟨false, false, 0⟩⟩ = true ∧
    VectorF.eq ⟨⟨false, true, 0⟩, ⟨false, false, 0⟩, ⟨false, false, 0⟩⟩
      ⟨⟨false, true, 0⟩, ⟨false, false, 0⟩, ⟨false, false, 0⟩⟩ = false := by
  refine ⟨fun u v => ?_, by decide, by decide⟩
  obtain ⟨ux, uy, uz⟩ := u
  obtain ⟨vx, vy, vz⟩ := v
  simp [VectorF.eq, VectorF.toList, Bool.and_assoc]

/-- C10: every segment successfully built by `Segment::new` satisfies the
field invariant (id = 7 has no beta, distance or clocking; ids 1..6 have all
three), and `translation()` and `rotation()` never panic on such a segment:
the unwrap-explicit checked variants succeed and agree with the total
functions. -/
theorem segment_field_invariant (m : Mirror) (id : ℤ) (seg : Segment)
    (h : Segment.new m id = Except.ok seg) :
    (seg.id = 7 → seg.beta = none ∧ seg.distance = none ∧ seg.cloking = none) ∧
    ((1 ≤ seg.id ∧ seg.id ≤ 6) →
      seg.beta.isSome = true ∧ seg.distance.isSome = true ∧
        seg.cloking.isSome = true) ∧
    seg.translationChecked = some seg.translation ∧
    seg.rotationChecked = some seg.rotation := by
  cases m <;> simp only [Segment.new] at h
  · split at h
    · rename_i hc
      injection h with h
      subst h
      refine ⟨fun _ => ⟨rfl, rfl, rfl⟩, fun hin => ?_, rfl, rfl⟩
      simp at hin
    · rename_i hc
      split at h
      · rename_i hc2
        injection h with h
        subst h
        have hlt : id < 7 := by omega
        refine ⟨fun h7 => absurd h7 hc, fun _ => ⟨rfl, rfl, rfl⟩, ?_, ?_⟩
        · simp [Segment.translationChecked, Segment.translation, hlt]
        · simp [Segment.rotationChecked, Segment.rotation, hlt]
      · exact Except.noConfusion h
  · split at h
    · rename_i hc
      injection h with h
      subst h
      refine ⟨fun _ => ⟨rfl, rfl, rfl⟩, fun hin => ?_, rfl, rfl⟩
      simp at hin
    · rename_i hc
      split at h
      · rename_i hc2
        injection h with h
        subst h
        have hlt : id < 7 := by omega
        refine ⟨fun h7 => absurd h7 hc, fun _ => ⟨rfl, rfl, rfl⟩, ?_, ?_⟩
        · simp [Segment.translationChecked, Segment.translation, hlt]
        · simp [Segment.rotationChecked, Segment.rotation, hlt]
      · exact Except.noConfusion h

/-- Witness for C10 at mirror M1, segment id 1. -/
theorem segment_field_invariant_witness :
    Segment.new Mirror.M1 1 =
      Except.ok (⟨1, 3.9, some 13.601685, some 8.71, some (-60 * (1 - 1)), Conic.m1,
        Mirror.M1⟩ : Segment) ∧
    ((⟨1, 3.9, some 13.601685, some 8.71, some (-60 * (1 - 1)), Conic.m1,
        Mirror.M1⟩ : Segment).beta.isSome = true ∧
     (⟨1, 3.9, some 13.601685, some 8.71, some (-60 * (1 - 1)), Conic.m1,
        Mirror.M1⟩ : Segment).distance.isSome = true ∧
     (⟨1, 3.9, some 13.601685, some 8.71, some (-60 * (1 - 1)), Conic.m1,
        Mirror.M1⟩ : Segment).cloking.isSome = true) ∧
    (⟨1, 3.9, some 13.601685, some 8.71, some (-60 * (1 - 1)), Conic.m1,
        Mirror.M1⟩ : Segment).translationChecked =
      some (⟨1, 3.9, some 13.601685, some 8.71, some (-60 * (1 - 1)), Conic.m1,
        Mirror.M1⟩ : Segment).translation :=
  ⟨rfl,
   (segment_field_invariant Mirror.M1 1
     (⟨1, 3.9, some 13.601685, some 8.71, some (-60 * (1 - 1)), Conic.m1,
       Mirror.M1⟩ : Segment) rfl).2.1 (by decide),
   (segment_field_invariant Mirror.M1 1
     (⟨1, 3.9, some 13.601685, some 8.71, some (-60 * (1 - 1)), Conic.m1,
       Mirror.M1⟩ : Segment) rfl).2.2.1⟩

end Geotrans
